import Mathlib

-- Verification of the FuelishPy fuel-price scraper (src/fuelish.py).
-- The HTML layer is shallowly embedded: a table is the list of its <tr>
-- rows (the first row is the header), a row is the list of its <td> cells,
-- and a cell carries its text content together with two structural flags
-- recording whether the cell contains a descendant element of class
-- "chngBx up" (hasUp) respectively "chngBx down" (hasDown).

namespace Fuelish

/-- One table cell (a td element): its text content and the structural
change markers found inside it. -/
structure Cell where
  text : String
  hasUp : Bool
  hasDown : Bool
deriving DecidableEq

/-- A table row: the list of td cells produced by row.find_all("td"). -/
abbrev Row := List Cell

/-- Whitespace stripping on a character list: drop leading and trailing
whitespace. -/
def stripList (l : List Char) : List Char :=
  ((l.dropWhile Char.isWhitespace).reverse.dropWhile Char.isWhitespace).reverse

/-- Embedding of Python's str.strip(): remove leading and trailing
whitespace from a string. -/
def pyStrip (s : String) : String :=
  String.mk (stripList s.data)

/-- The sign-annotated change value of the spec's data model. -/
inductive SignedChange where
  | up (t : String)
  | down (t : String)
  | flat (t : String)
deriving DecidableEq

/-- Rendering of a SignedChange, per the spec's data model. -/
def renderChange : SignedChange → String
  | .up t => "+ " ++ t
  | .down t => "- " ++ t
  | .flat t => "  " ++ t

/-- Classification of a change cell by its structural markers, mirroring
the if / elif / else chain on ch.find(class_="chngBx up") and
ch.find(class_="chngBx down") in fuelish.py. -/
def classifyChange (c : Cell) : SignedChange :=
  if c.hasUp then .up (pyStrip c.text)
  else if c.hasDown then .down (pyStrip c.text)
  else .flat (pyStrip c.text)

/-- The change string appended by the source code (lines 76-82 / 134-140):
"+ " for the up marker, "- " for the down marker, two spaces otherwise,
followed by the stripped cell text. -/
def changeOf (c : Cell) : String :=
  if c.hasUp then "+ " ++ pyStrip c.text
  else if c.hasDown then "- " ++ pyStrip c.text
  else "  " ++ pyStrip c.text

/-- Discriminator for the up variant. -/
def isUpTag : SignedChange → Bool
  | .up _ => true
  | _ => false

/-- Discriminator for the down variant. -/
def isDownTag : SignedChange → Bool
  | .down _ => true
  | _ => false

/-- Discriminator for the flat variant. -/
def isFlatTag : SignedChange → Bool
  | .flat _ => true
  | _ => false

/-- The constructor tag of a SignedChange, forgetting the payload. -/
inductive ChangeTag where
  | up
  | down
  | flat
deriving DecidableEq

/-- Tag of a SignedChange value. -/
def tagOf : SignedChange → ChangeTag
  | .up _ => .up
  | .down _ => .down
  | .flat _ => .flat

/-- A parsed price record (state- or district-level): the stripped texts of
the first two cells and the change string from the third. -/
structure PRecord where
  name : String
  price : String
  change : String
deriving DecidableEq

/-- Parsing of one petrol-table row (lines 70-82 / 128-140): a row with
fewer than 3 cells is skipped (continue), otherwise the first cell gives
the name, the second the price, the third the change string. -/
def parseRow : Row → Option PRecord
  | a :: b :: c :: _ => some ⟨pyStrip a.text, pyStrip b.text, changeOf c⟩
  | _ => none

/-- Parsing of one diesel-table row (lines 84-95 / 142-153): the first
cell is ignored, the second gives the price, the third the change. -/
def parseRowD : Row → Option (String × String)
  | _ :: b :: c :: _ => some (pyStrip b.text, changeOf c)
  | _ => none

/-- All records extracted from the body rows of a petrol table. -/
def parseRowsP (rows : List Row) : List PRecord :=
  rows.filterMap parseRow

/-- All (price, change) pairs extracted from the body rows of a diesel
table. -/
def parseRowsD (rows : List Row) : List (String × String) :=
  rows.filterMap parseRowD

/-- Petrol-table extraction: table.find_all("tr")[1:] drops the header row
unconditionally, then each body row is parsed. -/
def extractP (table : List Row) : List PRecord :=
  parseRowsP table.tail

/-- Diesel-table extraction: header row dropped, body rows parsed for
(price, change). -/
def extractD (table : List Row) : List (String × String) :=
  parseRowsD table.tail

/-- The combined record of the spec's data model. -/
structure CombinedRecord where
  name : String
  petrolPrice : String
  petrolChange : String
  dieselPrice : String
  dieselChange : String
deriving DecidableEq

/-- Pairing one petrol record with one diesel (price, change) pair. -/
def mkCombined (p : PRecord) (d : String × String) : CombinedRecord :=
  ⟨p.name, p.price, p.change, d.1, d.2⟩

/-- The positional zip of the two extractions (the Python zip over the
five parallel lists in lines 97-99 / 156-159): truncates to the shorter
side. -/
def combine (ps : List PRecord) (ds : List (String × String)) :
    List CombinedRecord :=
  List.zipWith mkCombined ps ds

/-- A fetched page: either the bounded wait for a table element timed out
(selenium raises TimeoutException at that point), or the page loaded and
BeautifulSoup's soup.find("table") yields the table (some) or nothing
(none). -/
inductive Page where
  | timeout
  | loaded (table : Option (List Row))
deriving DecidableEq

/-- wait_for_table (lines 46-48): WebDriverWait(driver, timeout).until
presence of a table element. There is no try/except anywhere in the
program, so a timeout is an exception that propagates to the caller. -/
def wait_for_table : Page → Except Unit Unit
  | .timeout => .error ()
  | .loaded _ => .ok ()

/-- soup.find("table") on an already loaded page. -/
def pageTable : Page → Option (List Row)
  | .timeout => none
  | .loaded t => t

/-- Observable actions of a run, in program order. -/
inductive Event where
  | fetch (url : String)
  | loadConfig
  | warn (district : String)
  | write (path : String) (content : List (List String))
deriving DecidableEq

/-- URL of the state-level petrol page (line 52). -/
def urlStatePetrol : String :=
  "https://www.ndtv.com/fuel-prices/petrol-price-in-all-state"

/-- URL of the state-level diesel page (line 53). -/
def urlStateDiesel : String :=
  "https://www.ndtv.com/fuel-prices/diesel-price-in-all-state"

/-- URL of the city-level petrol page (line 109). -/
def urlCityPetrol : String :=
  "https://www.ndtv.com/fuel-prices/petrol-price-in-all-city"

/-- URL of the city-level diesel page (line 110). -/
def urlCityDiesel : String :=
  "https://www.ndtv.com/fuel-prices/diesel-price-in-all-city"

/-- Header row of State.csv (line 97). -/
def stateHeader : List String :=
  ["State", "Price(P)", "Change(P)", "Price(D)", "Change(D)"]

/-- Header row of each per-state district file (line 173). -/
def districtHeader : List String :=
  ["District", "Price(P)", "Change(P)", "Price(D)", "Change(D)"]

/-- The five-column CSV row built from a combined record. -/
def toRowC (r : CombinedRecord) : List String :=
  [r.name, r.petrolPrice, r.petrolChange, r.dieselPrice, r.dieselChange]

/-- scrape_state_level (lines 50-105): fetch the petrol page and wait (a
timeout propagates), fetch the diesel page and wait; if either soup lacks
a table, print a message and return the empty list; otherwise parse both
tables, zip them, write State.csv (header plus the combined rows) and
return the list of state names. The error value models the uncaught
TimeoutException. -/
def scrape_state_level (pp pd : Page) :
    List Event × Except Unit (List String) :=
  match wait_for_table pp with
  | .error _ => ([.fetch urlStatePetrol], .error ())
  | .ok _ =>
    match wait_for_table pd with
    | .error _ => ([.fetch urlStatePetrol, .fetch urlStateDiesel], .error ())
    | .ok _ =>
      match pageTable pp, pageTable pd with
      | some tp, some td =>
        ([.fetch urlStatePetrol, .fetch urlStateDiesel,
          .write "State.csv"
            (stateHeader :: (combine (extractP tp) (extractD td)).map toRowC)],
         .ok ((extractP tp).map PRecord.name))
      | _, _ => ([.fetch urlStatePetrol, .fetch urlStateDiesel], .ok [])

/-- scrape_all_districts (lines 107-159): same fetch/wait/parse pattern on
the two city-level pages; returns the combined records and writes
nothing. -/
def scrape_all_districts (pp pd : Page) :
    List Event × Except Unit (List CombinedRecord) :=
  match wait_for_table pp with
  | .error _ => ([.fetch urlCityPetrol], .error ())
  | .ok _ =>
    match wait_for_table pd with
    | .error _ => ([.fetch urlCityPetrol, .fetch urlCityDiesel], .error ())
    | .ok _ =>
      match pageTable pp, pageTable pd with
      | some tp, some td =>
        ([.fetch urlCityPetrol, .fetch urlCityDiesel],
         .ok (combine (extractP tp) (extractD td)))
      | _, _ => ([.fetch urlCityPetrol, .fetch urlCityDiesel], .ok [])

/-- district_to_state.get(k) on the JSON object, embedded as an
insertion-ordered association list with unique keys. -/
def lookupMap (m : List (String × String)) (k : String) : Option String :=
  (m.find? (fun e => decide (e.1 = k))).map (fun e => e.2)

/-- state_groups.setdefault(state_name, []).append(rec) (line 201) on an
insertion-ordered association list of groups. -/
def addToGroup (gs : List (String × List CombinedRecord)) (s : String)
    (r : CombinedRecord) : List (String × List CombinedRecord) :=
  if gs.any (fun g => decide (g.1 = s)) then
    gs.map (fun g => if g.1 = s then (g.1, g.2 ++ [r]) else g)
  else gs ++ [(s, [r])]

/-- One iteration of the grouping loop (lines 196-201): look the district
name up; a missing key and a falsy (empty) value both take the warning
branch (if not state_name) and skip the record; otherwise the record is
appended to its state's group. -/
def groupStep (m : List (String × String))
    (acc : List (String × List CombinedRecord) × List String)
    (r : CombinedRecord) :
    List (String × List CombinedRecord) × List String :=
  match lookupMap m r.name with
  | none => (acc.1, acc.2 ++ [r.name])
  | some s =>
    if s = "" then (acc.1, acc.2 ++ [r.name]) else (addToGroup acc.1 s r, acc.2)

/-- The whole grouping loop: groups in key insertion order paired with the
warned (unresolved) district names in encounter order. -/
def groupDistricts (m : List (String × String))
    (recs : List CombinedRecord) :
    List (String × List CombinedRecord) × List String :=
  recs.foldl (groupStep m) ([], [])

/-- The effective resolution performed by the grouping loop: the
looked-up state, with a missing key and the empty-string value both
treated as unresolved. -/
def resolves (m : List (String × String)) (k : String) : Option String :=
  match lookupMap m k with
  | none => none
  | some s => if s = "" then none else some s

/-- Membership of a record in the group of a given state. -/
def inGroup (gs : List (String × List CombinedRecord)) (s : String)
    (r : CombinedRecord) : Prop :=
  ∃ g ∈ gs, g.1 = s ∧ r ∈ g.2

/-- A character matched by the regex class [\s&] of clean_state_name. -/
def sepChar (c : Char) : Bool := c.isWhitespace || c == '&'

/-- re.sub on a character list: every maximal run of separator characters
becomes a single dash; the flag records whether the previous character was
part of such a run. -/
def collapseAux : Bool → List Char → List Char
  | _, [] => []
  | inSep, c :: cs =>
    if sepChar c then
      if inSep then collapseAux true cs else '-' :: collapseAux true cs
    else c :: collapseAux false cs

/-- clean_state_name (lines 25-27):
re.sub(r'[\s&]+', '-', name.strip().lower()). Defined in the source but
called from no other function of the file. -/
def clean_state_name (name : String) : String :=
  String.mk (collapseAux false ((stripList name.data).map Char.toLower))

/-- The output path used by save_state_districts (line 169):
os.path.join("assets", state_name + ".csv"). The raw state name is used;
no cleaning is applied to it. -/
def filePath (stateName : String) : String :=
  "assets/" ++ stateName ++ ".csv"

/-- The inputs a run consumes: the four pages, and the JSON lookup file
(none when missing or malformed, in which case open/json.load raises). -/
structure RunInput where
  statePetrol : Page
  stateDiesel : Page
  cityPetrol : Page
  cityDiesel : Page
  configFile : Option (List (String × String))
deriving DecidableEq

/-- main (lines 178-209): state-level scrape (exceptions propagate),
district-level scrape, early return when the district list is empty, then
the json config load (a missing or malformed file raises and aborts the
run at this point), the grouping loop with its warnings, and one write per
state group handed to the thread pool. The trace lists the actions in
program/dispatch order; the second component is none when the run dies
with an uncaught exception. -/
def main (inp : RunInput) : List Event × Option Unit :=
  let sres := scrape_state_level inp.statePetrol inp.stateDiesel
  match sres.2 with
  | .error _ => (sres.1, none)
  | .ok _ =>
    let dres := scrape_all_districts inp.cityPetrol inp.cityDiesel
    match dres.2 with
    | .error _ => (sres.1 ++ dres.1, none)
    | .ok districts =>
      if districts.isEmpty then (sres.1 ++ dres.1, some ())
      else
        match inp.configFile with
        | none => (sres.1 ++ dres.1, none)
        | some m =>
          let gw := groupDistricts m districts
          (sres.1 ++ dres.1 ++ [.loadConfig] ++ gw.2.map .warn
             ++ gw.1.map (fun g =>
                  .write (filePath g.1) (districtHeader :: g.2.map toRowC)),
           some ())

/-- The (path, content) write actions contained in a trace. -/
def writesOf (trace : List Event) : List (String × List (List String)) :=
  trace.filterMap (fun e => match e with
    | .write p c => some (p, c)
    | _ => none)

/-- All file writes of one run, in program/dispatch order. -/
def runWrites (inp : RunInput) : List (String × List (List String)) :=
  writesOf (main inp).1

/-- The final content of each file after a sequence of writes: the last
write to a path wins. -/
def applyWrites (l : List (String × List (List String))) :
    String → Option (List (List String)) :=
  fun p => ((l.filter (fun e => decide (e.1 = p))).map (fun e => e.2)).getLast?

/-- The information of a row that the diesel-side parser reads: nothing at
all for a short row, otherwise exactly its second and third cells. -/
def dieselView (r : Row) : Option (Cell × Cell) :=
  match r with
  | _ :: b :: c :: _ => some (b, c)
  | _ => none

/-- The information of a diesel page that the pipeline reads: its timeout
status, whether a table is present, and each row's diesel view. -/
def pageView : Page → Option (Option (List (Option (Cell × Cell))))
  | .timeout => none
  | .loaded none => some none
  | .loaded (some t) => some (some (t.map dieselView))

end Fuelish

namespace Fuelish

theorem parseRow_isSome_of_shape (a b c : Cell) (rest : Row) :
    parseRow (a :: b :: c :: rest) = some ⟨pyStrip a.text, pyStrip b.text, changeOf c⟩ := rfl

theorem parseRow_eq_none_of_short (r : Row) (h : r.length < 3) :
    parseRow r = none := by
  match r with
  | [] => rfl
  | [a] => rfl
  | [a, b] => rfl
  | a :: b :: c :: rest => simp [List.length] at h; omega

theorem parseRowD_eq_none_of_short (r : Row) (h : r.length < 3) :
    parseRowD r = none := by
  match r with
  | [] => rfl
  | [a] => rfl
  | [a, b] => rfl
  | a :: b :: c :: rest => simp [List.length] at h; omega

theorem parseRow_shape_of_isSome (r : Row) (p : PRecord)
    (h : parseRow r = some p) :
    ∃ a b c rest, r = a :: b :: c :: rest ∧
      p = ⟨pyStrip a.text, pyStrip b.text, changeOf c⟩ := by
  match r with
  | [] => exact absurd h (by simp [parseRow])
  | [a] => exact absurd h (by simp [parseRow])
  | [a, b] => exact absurd h (by simp [parseRow])
  | a :: b :: c :: rest =>
    refine ⟨a, b, c, rest, rfl, ?_⟩
    simpa [parseRow] using h.symm

theorem length_parseRowsP (rows : List Row) :
    (parseRowsP rows).length =
      rows.length - rows.countP (fun r => decide (r.length < 3)) := by
  induction rows with
  | nil => rfl
  | cons r rows ih =>
    have hcount : rows.countP (fun r => decide (r.length < 3)) ≤ rows.length :=
      List.countP_le_length _
    by_cases h : r.length < 3
    · have hr : parseRow r = none := parseRow_eq_none_of_short r h
      simp [parseRowsP, List.filterMap_cons, hr, List.countP_cons, h]
      simp [parseRowsP] at ih
      omega
    · obtain ⟨a, b, c, rest, rfl⟩ : ∃ a b c rest, r = a :: b :: c :: rest := by
        match r with
        | [] => simp [List.length] at h
        | [a] => simp [List.length] at h
        | [a, b] => simp [List.length] at h
        | a :: b :: c :: rest => exact ⟨a, b, c, rest, rfl⟩
      simp [parseRowsP, List.filterMap_cons, parseRow, List.countP_cons, h]
      simp [parseRowsP] at ih
      omega

theorem length_parseRowsD (rows : List Row) :
    (parseRowsD rows).length =
      rows.length - rows.countP (fun r => decide (r.length < 3)) := by
  induction rows with
  | nil => rfl
  | cons r rows ih =>
    have hcount : rows.countP (fun r => decide (r.length < 3)) ≤ rows.length :=
      List.countP_le_length _
    by_cases h : r.length < 3
    · have hr : parseRowD r = none := parseRowD_eq_none_of_short r h
      simp [parseRowsD, List.filterMap_cons, hr, List.countP_cons, h]
      simp [parseRowsD] at ih
      omega
    · obtain ⟨a, b, c, rest, rfl⟩ : ∃ a b c rest, r = a :: b :: c :: rest := by
        match r with
        | [] => simp [List.length] at h
        | [a] => simp [List.length] at h
        | [a, b] => simp [List.length] at h
        | a :: b :: c :: rest => exact ⟨a, b, c, rest, rfl⟩
      simp [parseRowsD, List.filterMap_cons, parseRowD, List.countP_cons, h]
      simp [parseRowsD] at ih
      omega

theorem combine_getElem? (ps : List PRecord) (ds : List (String × String))
    (i : Nat) (p : PRecord) (d : String × String)
    (hp : ps[i]? = some p) (hd : ds[i]? = some d) :
    (combine ps ds)[i]? = some (mkCombined p d) := by
  induction ps generalizing ds i with
  | nil => simp at hp
  | cons p' ps ih =>
    match ds with
    | [] => simp at hd
    | d' :: ds =>
      match i with
      | 0 =>
        simp at hp hd
        simp [combine, List.zipWith_cons_cons, hp, hd]
      | i + 1 =>
        simp [List.getElem?_cons_succ] at hp hd
        simpa [combine, List.zipWith_cons_cons, List.getElem?_cons_succ]
          using ih ds i hp hd

/-- C1: the combined output zips the petrol-table extraction with the
diesel-table extraction positionally; its length is the minimum of the two
(independently filtered) lengths, each combined record at index i pairs
the petrol record at i with the diesel pair at i, and no combined record
exists at or beyond the shorter length (excess rows are dropped). -/
theorem c1_positional_pairing (tp td : List Row) :
    (combine (extractP tp) (extractD td)).length =
      min (extractP tp).length (extractD td).length
  ∧ (∀ (i : Nat) (p : PRecord) (d : String × String),
      (extractP tp)[i]? = some p → (extractD td)[i]? = some d →
      (combine (extractP tp) (extractD td))[i]? = some (mkCombined p d))
  ∧ (∀ i : Nat, min (extractP tp).length (extractD td).length ≤ i →
      (combine (extractP tp) (extractD td))[i]? = none) := by
  refine ⟨by simp [combine], ?_, ?_⟩
  · exact fun i p d hp hd => combine_getElem? _ _ i p d hp hd
  · intro i hi
    apply List.getElem?_eq_none
    simpa [combine] using hi

/-- C1 witness: a concrete petrol table with 2 body rows and diesel table
with 1 body row combine to exactly 1 record pairing index 0 with index 0. -/
theorem c1_positional_pairing_witness :
    (combine (extractP [[], [⟨"A", false, false⟩, ⟨"1", false, false⟩, ⟨"x", true, false⟩],
                            [⟨"B", false, false⟩, ⟨"2", false, false⟩, ⟨"y", false, false⟩]])
             (extractD [[], [⟨"C", false, false⟩, ⟨"3", false, false⟩, ⟨"z", false, true⟩]])
      )[0]? = some (mkCombined ⟨"A", "1", "+ x"⟩ ("3", "- z")) :=
  (c1_positional_pairing _ _).2.1 0 _ _ (by decide) (by decide)

/-- C2: the change field is classified Up / Down / Flat by the structural
markers of the change cell alone; the code's change string is the rendering
of that classification; exactly one variant applies; a cell with neither
marker is Flat; the tag never depends on the cell text; and the rendering
prefixes "+ ", "- ", or two spaces. -/
theorem c2_change_classification :
    (∀ c : Cell, changeOf c = renderChange (classifyChange c))
  ∧ (∀ c : Cell,
      (isUpTag (classifyChange c)).toNat + (isDownTag (classifyChange c)).toNat
        + (isFlatTag (classifyChange c)).toNat = 1)
  ∧ (∀ t : String, classifyChange ⟨t, false, false⟩ = .flat (pyStrip t))
  ∧ (∀ (t₁ t₂ : String) (u d : Bool),
      tagOf (classifyChange ⟨t₁, u, d⟩) = tagOf (classifyChange ⟨t₂, u, d⟩))
  ∧ (∀ t : String, renderChange (.up t) = "+ " ++ t
      ∧ renderChange (.down t) = "- " ++ t
      ∧ renderChange (.flat t) = "  " ++ t) := by
  refine ⟨?_, ?_, ?_, ?_, ?_⟩
  · intro c
    rcases c with ⟨t, u, d⟩
    cases u <;> cases d <;> simp [changeOf, classifyChange, renderChange]
  · intro c
    rcases c with ⟨t, u, d⟩
    cases u <;> cases d <;> simp [classifyChange, isUpTag, isDownTag, isFlatTag]
  · intro t
    simp [classifyChange]
  · intro t₁ t₂ u d
    cases u <;> cases d <;> simp [classifyChange, tagOf]
  · intro t
    exact ⟨rfl, rfl, rfl⟩

/-- C3: for a table with N body rows (all rows after the first, header,
row), the extractor emits exactly N minus the number of body rows having
fewer than 3 cells, for the petrol side and the diesel side alike; a short
row is skipped silently, contributing no record and no error. -/
theorem c3_short_rows_skipped (t : List Row) :
    ((extractP t).length =
        t.tail.length - t.tail.countP (fun r => decide (r.length < 3)))
  ∧ ((extractD t).length =
        t.tail.length - t.tail.countP (fun r => decide (r.length < 3)))
  ∧ (∀ (r : Row) (rows : List Row), r.length < 3 →
      parseRowsP (r :: rows) = parseRowsP rows
        ∧ parseRowsD (r :: rows) = parseRowsD rows) := by
  refine ⟨length_parseRowsP _, length_parseRowsD _, ?_⟩
  intro r rows h
  constructor
  · simp [parseRowsP, List.filterMap_cons, parseRow_eq_none_of_short r h]
  · simp [parseRowsD, List.filterMap_cons, parseRowD_eq_none_of_short r h]

/-- C3 witness: a concrete table with 3 body rows, one of which is short,
yields 2 records, and prepending a short row leaves the parse unchanged. -/
theorem c3_short_rows_skipped_witness :
    (extractP [[], [⟨"A", false, false⟩, ⟨"1", false, false⟩, ⟨"x", true, false⟩],
                   [⟨"s", false, false⟩],
                   [⟨"B", false, false⟩, ⟨"2", false, false⟩, ⟨"y", false, false⟩]]).length = 2
  ∧ parseRowsP ([⟨"s", false, false⟩] :: [[⟨"A", false, false⟩, ⟨"1", false, false⟩, ⟨"x", true, false⟩]])
      = parseRowsP [[⟨"A", false, false⟩, ⟨"1", false, false⟩, ⟨"x", true, false⟩]] := by
  constructor
  · have h := (c3_short_rows_skipped [[], [⟨"A", false, false⟩, ⟨"1", false, false⟩, ⟨"x", true, false⟩],
                   [⟨"s", false, false⟩],
                   [⟨"B", false, false⟩, ⟨"2", false, false⟩, ⟨"y", false, false⟩]]).1
    rw [h]; decide
  · exact ((c3_short_rows_skipped []).2.2 [⟨"s", false, false⟩]
      [[⟨"A", false, false⟩, ⟨"1", false, false⟩, ⟨"x", true, false⟩]] (by decide)).1

theorem scrape_state_level_trace_head (pp pd : Page) :
    ∃ rest, (scrape_state_level pp pd).1 = Event.fetch urlStatePetrol :: rest := by
  cases pp with
  | timeout => exact ⟨[], rfl⟩
  | loaded t =>
    cases pd with
    | timeout => exact ⟨_, rfl⟩
    | loaded t₂ => cases t <;> cases t₂ <;> exact ⟨_, rfl⟩

theorem scrape_state_level_loaded_ok (t₁ t₂ : Option (List Row)) :
    ∃ l, (scrape_state_level (.loaded t₁) (.loaded t₂)).2 = .ok l := by
  cases t₁ <;> cases t₂ <;> exact ⟨_, rfl⟩

theorem scrape_state_level_loaded_trace (t₁ t₂ : Option (List Row)) :
    ∃ rest, (scrape_state_level (.loaded t₁) (.loaded t₂)).1 =
      Event.fetch urlStatePetrol :: Event.fetch urlStateDiesel :: rest := by
  cases t₁ <;> cases t₂ <;> exact ⟨_, rfl⟩

theorem scrape_all_districts_loaded_some (tp td : List Row) :
    scrape_all_districts (.loaded (some tp)) (.loaded (some td)) =
      ([.fetch urlCityPetrol, .fetch urlCityDiesel],
       .ok (combine (extractP tp) (extractD td))) := rfl

/-- C4 counterexample: a run whose state-level petrol page never shows a
table within the bounded wait does NOT degrade to an empty result — the
TimeoutException escapes scrape_state_level (the error outcome, not the
empty list the claim predicts) and the whole run aborts. -/
theorem c4_counterexample :
    (scrape_state_level Page.timeout (Page.loaded none)).2 = Except.error ()
  ∧ (scrape_state_level Page.timeout (Page.loaded none)).2 ≠ Except.ok []
  ∧ (main ⟨Page.timeout, Page.loaded none, Page.loaded none, Page.loaded none,
       some []⟩).2 = none :=
  ⟨rfl, fun h => Except.noConfusion h, rfl⟩

/-- C4 (amended): exceeding the bounded wait on a page is NOT recoverable,
on any of the four page loads: the TimeoutException propagates uncaught
out of scrape_state_level and scrape_all_districts alike — in either the
first or the second fetch position — and the whole run aborts whenever any
of the four pages times out. Extraction degrades to an empty result with
the run continuing only in the different situation in which every wait
succeeds but no table element is found in a page's parsed HTML, for either
scraper. -/
theorem c4_timeout_aborts :
    (∀ pd : Page, (scrape_state_level Page.timeout pd).2 = Except.error ())
  ∧ (∀ t : Option (List Row),
      (scrape_state_level (Page.loaded t) Page.timeout).2 = Except.error ())
  ∧ (∀ pd : Page, (scrape_all_districts Page.timeout pd).2 = Except.error ())
  ∧ (∀ t : Option (List Row),
      (scrape_all_districts (Page.loaded t) Page.timeout).2 = Except.error ())
  ∧ (∀ tb : Option (List Row),
      (scrape_state_level (Page.loaded none) (Page.loaded tb)).2 = Except.ok []
        ∧ (scrape_all_districts (Page.loaded none) (Page.loaded tb)).2 =
            Except.ok [])
  ∧ (∀ t : List Row,
      (scrape_state_level (Page.loaded (some t)) (Page.loaded none)).2 =
          Except.ok []
        ∧ (scrape_all_districts (Page.loaded (some t)) (Page.loaded none)).2 =
            Except.ok [])
  ∧ (∀ inp : RunInput,
      inp.statePetrol = Page.timeout ∨ inp.stateDiesel = Page.timeout ∨
        inp.cityPetrol = Page.timeout ∨ inp.cityDiesel = Page.timeout →
      (main inp).2 = none) := by
  refine ⟨fun pd => rfl, fun t => rfl, fun pd => rfl, fun t => rfl,
    fun tb => ⟨?_, ?_⟩, fun t => ⟨rfl, rfl⟩, fun inp h => ?_⟩
  · cases tb <;> rfl
  · cases tb <;> rfl
  · rcases inp with ⟨sp, sd, cp, cd, cf⟩
    rcases h with h | h | h | h
    · cases h
      rfl
    · cases h
      cases sp <;> rfl
    · cases h
      cases sp with
      | timeout => rfl
      | loaded t =>
        cases sd with
        | timeout => rfl
        | loaded t₂ => cases t <;> cases t₂ <;> rfl
    · cases h
      cases sp with
      | timeout => rfl
      | loaded t =>
        cases sd with
        | timeout => rfl
        | loaded t₂ =>
          cases t <;> cases t₂ <;> cases cp <;> rfl

/-- C4 witness: the amended theorem applied at concrete inputs — a run
with a timing-out state petrol page aborts, and so does a run in which
only the city petrol page times out (all state-level pages fine). -/
theorem c4_timeout_aborts_witness :
    (main ⟨Page.timeout, Page.timeout, Page.timeout, Page.timeout, none⟩).2 =
      none
  ∧ (main ⟨Page.loaded none, Page.loaded none, Page.timeout,
       Page.loaded none, none⟩).2 = none :=
  ⟨c4_timeout_aborts.2.2.2.2.2.2 _ (Or.inl rfl),
   c4_timeout_aborts.2.2.2.2.2.2 _ (Or.inr (Or.inr (Or.inl rfl)))⟩

/-- C5 counterexample: a run whose lookup resource is missing but whose
four pages all load fine performs all four page fetches and only then
aborts — the lookup is not loaded at process start and does not abort the
run before fetching, contrary to the claim. -/
theorem c5_counterexample :
    (main ⟨Page.loaded (some [[], [⟨"S", false, false⟩, ⟨"1", false, false⟩, ⟨"c", true, false⟩]]),
           Page.loaded (some [[], [⟨"S", false, false⟩, ⟨"2", false, false⟩, ⟨"c", false, false⟩]]),
           Page.loaded (some [[], [⟨"Pune", false, false⟩, ⟨"3", false, false⟩, ⟨"c", false, true⟩]]),
           Page.loaded (some [[], [⟨"Pune", false, false⟩, ⟨"4", false, false⟩, ⟨"c", false, false⟩]]),
           none⟩).2 = none
  ∧ (main ⟨Page.loaded (some [[], [⟨"S", false, false⟩, ⟨"1", false, false⟩, ⟨"c", true, false⟩]]),
           Page.loaded (some [[], [⟨"S", false, false⟩, ⟨"2", false, false⟩, ⟨"c", false, false⟩]]),
           Page.loaded (some [[], [⟨"Pune", false, false⟩, ⟨"3", false, false⟩, ⟨"c", false, true⟩]]),
           Page.loaded (some [[], [⟨"Pune", false, false⟩, ⟨"4", false, false⟩, ⟨"c", false, false⟩]]),
           none⟩).1.countP
      (fun e => match e with | .fetch _ => true | _ => false) = 4 := by
  constructor
  · decide
  · decide

/-- C5 (amended): the lookup resource is loaded only after the fetch
phase, not at process start: every run's first action is a page fetch; a
run whose pages load and yield a non-empty district list but whose lookup
resource is missing or malformed performs all four fetches and aborts only
at the load point; and when the district list is empty the resource is
never consulted and the run ends normally even though it is missing. -/
theorem c5_config_loaded_after_fetches :
    (∀ inp : RunInput, (main inp).1.head? = some (Event.fetch urlStatePetrol))
  ∧ (∀ tsp tsd tcp tcd : List Row,
      combine (extractP tcp) (extractD tcd) ≠ [] →
      (main ⟨Page.loaded (some tsp), Page.loaded (some tsd),
             Page.loaded (some tcp), Page.loaded (some tcd), none⟩).2 = none
      ∧ ∀ u ∈ [urlStatePetrol, urlStateDiesel, urlCityPetrol, urlCityDiesel],
          Event.fetch u ∈ (main ⟨Page.loaded (some tsp), Page.loaded (some tsd),
             Page.loaded (some tcp), Page.loaded (some tcd), none⟩).1)
  ∧ (∀ tsp tsd : List Row,
      (main ⟨Page.loaded (some tsp), Page.loaded (some tsd),
             Page.loaded none, Page.loaded none, none⟩).2 = some ()) := by
  refine ⟨fun inp => ?_, fun tsp tsd tcp tcd hne => ?_, fun tsp tsd => rfl⟩
  · rcases inp with ⟨sp, sd, cp, cd, cf⟩
    obtain ⟨rest, hrest⟩ := scrape_state_level_trace_head sp sd
    unfold main
    rcases h2 : (scrape_state_level sp sd).2 with e | l
    · simp [h2, hrest]
    · rcases h3 : (scrape_all_districts cp cd).2 with e | ds
      · simp [h2, h3, hrest]
      · by_cases hds : ds.isEmpty
        · simp [h2, h3, hds, hrest]
        · cases cf with
          | none => simp [h2, h3, hds, hrest]
          | some m => simp [h2, h3, hds, hrest]
  · constructor
    · unfold main
      obtain ⟨l, hl⟩ := scrape_state_level_loaded_ok (some tsp) (some tsd)
      simp [hl, scrape_all_districts_loaded_some,
        List.isEmpty_iff, hne]
    · intro u hu
      unfold main
      obtain ⟨l, hl⟩ := scrape_state_level_loaded_ok (some tsp) (some tsd)
      obtain ⟨rest, hrest⟩ := scrape_state_level_loaded_trace (some tsp) (some tsd)
      simp at hu
      rcases hu with rfl | rfl | rfl | rfl <;>
        simp [hl, scrape_all_districts_loaded_some, List.isEmpty_iff, hne, hrest]

/-- C5 witness: the amended theorem applied at a concrete input with one
district row and a missing lookup file — the run aborts and the trace
contains all four fetches. -/
theorem c5_config_loaded_after_fetches_witness :
    (main ⟨Page.loaded (some [[], [⟨"S", false, false⟩, ⟨"1", false, false⟩, ⟨"c", true, false⟩]]),
           Page.loaded (some [[], [⟨"S", false, false⟩, ⟨"2", false, false⟩, ⟨"c", false, false⟩]]),
           Page.loaded (some [[], [⟨"Pune", false, false⟩, ⟨"3", false, false⟩, ⟨"c", false, true⟩]]),
           Page.loaded (some [[], [⟨"Pune", false, false⟩, ⟨"4", false, false⟩, ⟨"c", false, false⟩]]),
           none⟩).2 = none :=
  (c5_config_loaded_after_fetches.2.1
    [[], [⟨"S", false, false⟩, ⟨"1", false, false⟩, ⟨"c", true, false⟩]]
    [[], [⟨"S", false, false⟩, ⟨"2", false, false⟩, ⟨"c", false, false⟩]]
    [[], [⟨"Pune", false, false⟩, ⟨"3", false, false⟩, ⟨"c", false, true⟩]]
    [[], [⟨"Pune", false, false⟩, ⟨"4", false, false⟩, ⟨"c", false, false⟩]]
    (by decide)).1

/-- C6 counterexample: for the state name "New Delhi" the output file is
assets/New Delhi.csv — the raw name is embedded, the space and the capital
letters survive, and the result differs from the name the repository's own
clean_state_name (defined but never called by the saving code) would
produce. No lower-casing or space-removal transformation is applied. -/
theorem c6_counterexample :
    filePath "New Delhi" = "assets/New Delhi.csv"
  ∧ ' ' ∈ (filePath "New Delhi").data
  ∧ 'N' ∈ (filePath "New Delhi").data
  ∧ clean_state_name "New Delhi" = "new-delhi"
  ∧ filePath "New Delhi" ≠ "assets/" ++ clean_state_name "New Delhi" ++ ".csv" :=
  ⟨by decide, by decide, by decide, by decide, by decide⟩

/-- C6 (amended): the per-state output file name is the raw state name
with ".csv" appended inside assets/ — the identity transformation, with no
lower-casing or space removal (clean_state_name exists in the source but
save_state_districts does not use it). The naming is deterministic and
injective: two distinct state names never map to the same file. -/
theorem c6_raw_name_injective :
    (∀ s : String, filePath s = "assets/" ++ s ++ ".csv")
  ∧ (∀ s t : String, filePath s = filePath t → s = t) := by
  refine ⟨fun s => rfl, fun s t h => ?_⟩
  have hd := congrArg String.data h
  simp [filePath] at hd
  exact String.ext hd

/-- C6 witness: the injectivity direction applied at a concrete name. -/
theorem c6_raw_name_injective_witness : "Kerala" = "Kerala" :=
  c6_raw_name_injective.2 "Kerala" "Kerala" rfl

/-- C7 counterexample: a body row with three cells whose texts are all
empty has at least 3 cells, so it is parsed, and the emitted record has
empty name and empty price — the code never checks the cell texts. -/
theorem c7_counterexample :
    extractP [[], [⟨"", false, false⟩, ⟨"", false, false⟩, ⟨"", false, false⟩]]
      = [⟨"", "", "  "⟩]
  ∧ (⟨"", "", "  "⟩ : PRecord).name = ""
  ∧ (⟨"", "", "  "⟩ : PRecord).price = "" :=
  ⟨by decide, rfl, rfl⟩

/-- C7 (amended): the emitted record's name and price are the stripped
texts of the row's first and second cells, so they are non-empty provided
every parsed row's first two cells contain non-whitespace text; without
that assumption an emitted record can have empty name or price. -/
theorem c7_nonempty_name_price (rows : List Row)
    (hrows : ∀ r ∈ rows, ∀ (a b c : Cell) (rest : Row),
      r = a :: b :: c :: rest →
      pyStrip a.text ≠ "" ∧ pyStrip b.text ≠ "") :
    ∀ p ∈ parseRowsP rows, p.name ≠ "" ∧ p.price ≠ "" := by
  intro p hp
  rw [parseRowsP, List.mem_filterMap] at hp
  obtain ⟨r, hr, hpr⟩ := hp
  obtain ⟨a, b, c, rest, rfl, rfl⟩ := parseRow_shape_of_isSome r p hpr
  exact hrows _ hr a b c rest rfl

/-- C7 witness: the amended theorem applied to a concrete one-row table
with non-blank name and price cells. -/
theorem c7_nonempty_name_price_witness :
    (⟨"A", "1", "+ c"⟩ : PRecord).name ≠ ""
      ∧ (⟨"A", "1", "+ c"⟩ : PRecord).price ≠ "" :=
  c7_nonempty_name_price
    [[⟨"A", false, false⟩, ⟨"1", false, false⟩, ⟨"c", true, false⟩]]
    (by
      intro r hr a b c rest hEq
      simp at hr
      subst hr
      cases hEq
      exact ⟨by decide, by decide⟩)
    ⟨"A", "1", "+ c"⟩ (by decide)

theorem inGroup_addToGroup_self (gs : List (String × List CombinedRecord))
    (s : String) (r : CombinedRecord) : inGroup (addToGroup gs s r) s r := by
  unfold addToGroup
  by_cases hany : gs.any (fun g => decide (g.1 = s))
  · rw [if_pos hany]
    rw [List.any_eq_true] at hany
    obtain ⟨g, hg, hgs⟩ := hany
    simp only [decide_eq_true_eq] at hgs
    exact ⟨(g.1, g.2 ++ [r]), List.mem_map.mpr ⟨g, hg, by simp [hgs]⟩,
      by simp [hgs], by simp⟩
  · rw [if_neg hany]
    exact ⟨(s, [r]), by simp, rfl, by simp⟩

theorem inGroup_mono_addToGroup (gs : List (String × List CombinedRecord))
    (s' : String) (r' : CombinedRecord) {s : String} {r : CombinedRecord}
    (h : inGroup gs s r) : inGroup (addToGroup gs s' r') s r := by
  obtain ⟨g, hg, hg1, hgr⟩ := h
  unfold addToGroup
  by_cases hany : gs.any (fun g => decide (g.1 = s'))
  · rw [if_pos hany]
    by_cases he : g.1 = s'
    · exact ⟨(g.1, g.2 ++ [r']), List.mem_map.mpr ⟨g, hg, by simp [he]⟩, hg1,
        by simp [hgr]⟩
    · exact ⟨g, List.mem_map.mpr ⟨g, hg, by simp [he]⟩, hg1, hgr⟩
  · rw [if_neg hany]
    exact ⟨g, List.mem_append_left _ hg, hg1, hgr⟩

theorem addToGroup_sound {Q : String → CombinedRecord → Prop}
    {gs : List (String × List CombinedRecord)}
    (hgs : ∀ g ∈ gs, ∀ x ∈ g.2, Q g.1 x) {s : String} {r : CombinedRecord}
    (hQ : Q s r) :
    ∀ g ∈ addToGroup gs s r, ∀ x ∈ g.2, Q g.1 x := by
  intro g hg x hx
  unfold addToGroup at hg
  by_cases hany : gs.any (fun g => decide (g.1 = s))
  · rw [if_pos hany] at hg
    obtain ⟨g₀, hg₀, rfl⟩ := List.mem_map.mp hg
    by_cases he : g₀.1 = s
    · rw [if_pos he] at hx ⊢
      rcases List.mem_append.mp hx with hx' | hx'
      · exact hgs g₀ hg₀ x hx'
      · rw [List.mem_singleton] at hx'
        subst hx'
        exact he ▸ hQ
    · rw [if_neg he] at hx ⊢
      exact hgs g₀ hg₀ x hx
  · rw [if_neg hany] at hg
    rcases List.mem_append.mp hg with hg' | hg'
    · exact hgs g hg' x hx
    · rw [List.mem_singleton] at hg'
      subst hg'
      rw [List.mem_singleton] at hx
      subst hx
      exact hQ

theorem groupStep_warn_mono (m : List (String × String))
    (acc : List (String × List CombinedRecord) × List String)
    (x : CombinedRecord) {a : String} (h : a ∈ acc.2) :
    a ∈ (groupStep m acc x).2 := by
  unfold groupStep
  rcases hx : lookupMap m x.name with _ | s
  · simpa using Or.inl h
  · dsimp only
    by_cases hs : s = ""
    · rw [if_pos hs]
      simpa using Or.inl h
    · rw [if_neg hs]
      exact h

theorem groupStep_inGroup_mono (m : List (String × String))
    (acc : List (String × List CombinedRecord) × List String)
    (x : CombinedRecord) {s : String} {r : CombinedRecord}
    (h : inGroup acc.1 s r) : inGroup (groupStep m acc x).1 s r := by
  unfold groupStep
  rcases hx : lookupMap m x.name with _ | s'
  · exact h
  · dsimp only
    by_cases hs : s' = ""
    · rw [if_pos hs]
      exact h
    · rw [if_neg hs]
      exact inGroup_mono_addToGroup _ _ _ h

theorem groupFold_warn_mono (m : List (String × String))
    (recs : List CombinedRecord) :
    ∀ acc, ∀ a ∈ acc.2, a ∈ (recs.foldl (groupStep m) acc).2 := by
  induction recs with
  | nil => exact fun acc a h => h
  | cons y recs ih =>
    intro acc a h
    rw [List.foldl_cons]
    exact ih _ a (groupStep_warn_mono m acc y h)

theorem groupFold_inGroup_mono (m : List (String × String))
    (recs : List CombinedRecord) :
    ∀ acc, ∀ {s : String} {r : CombinedRecord}, inGroup acc.1 s r →
      inGroup ((recs.foldl (groupStep m) acc)).1 s r := by
  induction recs with
  | nil => intro acc s r h; exact h
  | cons y recs ih =>
    intro acc s r h
    rw [List.foldl_cons]
    exact ih _ (groupStep_inGroup_mono m acc y h)

theorem groupFold_sound (m : List (String × String))
    (recs : List CombinedRecord) :
    ∀ acc, (∀ g ∈ acc.1, ∀ x ∈ g.2, resolves m x.name = some g.1) →
      ∀ g ∈ (recs.foldl (groupStep m) acc).1, ∀ x ∈ g.2,
        resolves m x.name = some g.1 := by
  induction recs with
  | nil => exact fun acc hacc => hacc
  | cons y recs ih =>
    intro acc hacc
    rw [List.foldl_cons]
    apply ih
    unfold groupStep
    rcases hy : lookupMap m y.name with _ | s
    · exact hacc
    · dsimp only
      by_cases hs : s = ""
      · rw [if_pos hs]
        exact hacc
      · rw [if_neg hs]
        exact addToGroup_sound (Q := fun t x => resolves m x.name = some t)
          hacc (by simp [resolves, hy, hs])

theorem groupFold_complete (m : List (String × String))
    (recs : List CombinedRecord) :
    ∀ acc, ∀ r ∈ recs, ∀ s, resolves m r.name = some s →
      inGroup ((recs.foldl (groupStep m) acc)).1 s r := by
  induction recs with
  | nil => intro acc r hr; cases hr
  | cons y recs ih =>
    intro acc r hr s hres
    rw [List.foldl_cons]
    rcases List.mem_cons.mp hr with rfl | hr'
    · apply groupFold_inGroup_mono
      unfold groupStep
      rw [resolves] at hres
      rcases hl : lookupMap m r.name with _ | s'
      · rw [hl] at hres; cases hres
      · rw [hl] at hres
        dsimp only at hres ⊢
        by_cases hs : s' = ""
        · rw [if_pos hs] at hres; cases hres
        · rw [if_neg hs] at hres
          injection hres with hres
          subst hres
          rw [if_neg hs]
          exact inGroup_addToGroup_self _ _ _
    · exact ih _ r hr' s hres

theorem groupFold_warn_complete (m : List (String × String))
    (recs : List CombinedRecord) :
    ∀ acc, ∀ r ∈ recs, resolves m r.name = none →
      r.name ∈ ((recs.foldl (groupStep m) acc)).2 := by
  induction recs with
  | nil => intro acc r hr; cases hr
  | cons y recs ih =>
    intro acc r hr hres
    rw [List.foldl_cons]
    rcases List.mem_cons.mp hr with rfl | hr'
    · apply groupFold_warn_mono
      unfold groupStep
      rw [resolves] at hres
      rcases hl : lookupMap m r.name with _ | s'
      · simp
      · rw [hl] at hres
        dsimp only at hres ⊢
        by_cases hs : s' = ""
        · rw [if_pos hs]
          simp
        · rw [if_neg hs] at hres; cases hres
    · exact ih _ r hr' hres

theorem scrape_all_districts_loaded_ok (t₁ t₂ : Option (List Row)) :
    ∃ l, (scrape_all_districts (.loaded t₁) (.loaded t₂)).2 = .ok l := by
  cases t₁ <;> cases t₂ <;> exact ⟨_, rfl⟩

theorem main_loaded_some_config_ok (t₁ t₂ t₃ t₄ : Option (List Row))
    (m : List (String × String)) :
    (main ⟨.loaded t₁, .loaded t₂, .loaded t₃, .loaded t₄, some m⟩).2 =
      some () := by
  unfold main
  obtain ⟨l, hl⟩ := scrape_state_level_loaded_ok t₁ t₂
  obtain ⟨ds, hd⟩ := scrape_all_districts_loaded_ok t₃ t₄
  by_cases hds : ds.isEmpty <;> simp [hl, hd, hds]

/-- C8 counterexample: with the lookup map sending the district "Pune" to
the empty string, "Pune" IS a key of the map, yet the grouping loop takes
the warning branch (if not state_name is true for the empty string): the
record lands in no state group and a diagnostic is emitted, contradicting
the claim that every record whose name is a key is placed in the mapped
group. -/
theorem c8_counterexample :
    lookupMap [("Pune", "")] "Pune" = some ""
  ∧ groupDistricts [("Pune", "")] [⟨"Pune", "1", "+ a", "2", "- b"⟩]
      = ([], ["Pune"]) :=
  ⟨by decide, by decide⟩

/-- C8 (amended): for every combined district record, if its name maps to
a NON-EMPTY state value it is placed in the group of exactly that value;
every record found in any group resolves to that group's key (so no group
ever contains an unresolved district); if the name is absent from the map
— or maps to the falsy empty string — the name is emitted as a diagnostic
and the record is in no group; and a run whose pages load and whose config
is present always completes, unmapped districts notwithstanding. -/
theorem c8_resolver_grouping (m : List (String × String))
    (recs : List CombinedRecord) :
    (∀ r ∈ recs, ∀ s, resolves m r.name = some s →
        inGroup (groupDistricts m recs).1 s r)
  ∧ (∀ g ∈ (groupDistricts m recs).1, ∀ x ∈ g.2,
        resolves m x.name = some g.1)
  ∧ (∀ r ∈ recs, resolves m r.name = none →
        r.name ∈ (groupDistricts m recs).2)
  ∧ (∀ t₁ t₂ t₃ t₄ : Option (List Row),
        (main ⟨.loaded t₁, .loaded t₂, .loaded t₃, .loaded t₄, some m⟩).2 =
          some ()) := by
  refine ⟨?_, ?_, ?_, fun t₁ t₂ t₃ t₄ => main_loaded_some_config_ok _ _ _ _ m⟩
  · intro r hr s hres
    exact groupFold_complete m recs ([], []) r hr s hres
  · exact groupFold_sound m recs ([], []) (by simp)
  · intro r hr hres
    exact groupFold_warn_complete m recs ([], []) r hr hres

/-- C8 witness: a mapped district is placed in its state's group, and an
unmapped one is warned about, at concrete inputs. -/
theorem c8_resolver_grouping_witness :
    inGroup (groupDistricts [("Pune", "Maharashtra")]
        [⟨"Pune", "1", "+ a", "2", "- b"⟩, ⟨"Atlantis", "5", "  ", "6", "  "⟩]).1
      "Maharashtra" ⟨"Pune", "1", "+ a", "2", "- b"⟩
  ∧ "Atlantis" ∈ (groupDistricts [("Pune", "Maharashtra")]
        [⟨"Pune", "1", "+ a", "2", "- b"⟩, ⟨"Atlantis", "5", "  ", "6", "  "⟩]).2 :=
  ⟨(c8_resolver_grouping [("Pune", "Maharashtra")]
      [⟨"Pune", "1", "+ a", "2", "- b"⟩, ⟨"Atlantis", "5", "  ", "6", "  "⟩]).1
      ⟨"Pune", "1", "+ a", "2", "- b"⟩ (by decide) "Maharashtra" (by decide),
   (c8_resolver_grouping [("Pune", "Maharashtra")]
      [⟨"Pune", "1", "+ a", "2", "- b"⟩, ⟨"Atlantis", "5", "  ", "6", "  "⟩]).2.2.1
      ⟨"Atlantis", "5", "  ", "6", "  "⟩ (by decide) (by decide)⟩

theorem filePath_data (s : String) :
    (filePath s).data =
      'a' :: 's' :: 's' :: 'e' :: 't' :: 's' :: '/' ::
        (s.data ++ ['.', 'c', 's', 'v']) := by
  have h1 : ("assets/").data = ['a', 's', 's', 'e', 't', 's', '/'] := by decide
  have h2 : (".csv").data = ['.', 'c', 's', 'v'] := by decide
  simp [filePath, h1, h2]

theorem filePath_inj {s t : String} (h : filePath s = filePath t) : s = t := by
  have hd := congrArg String.data h
  rw [filePath_data, filePath_data] at hd
  simp at hd
  exact String.ext hd

theorem filePath_ne_state (s : String) : filePath s ≠ "State.csv" := by
  intro h
  have hd := congrArg String.data h
  rw [filePath_data] at hd
  rw [show ("State.csv").data = ['S', 't', 'a', 't', 'e', '.', 'c', 's', 'v']
    from by decide] at hd
  injection hd with h1 _
  exact absurd h1 (by decide)

theorem writesOf_append (a b : List Event) :
    writesOf (a ++ b) = writesOf a ++ writesOf b := by
  simp [writesOf, List.filterMap_append]

theorem writesOf_nil : writesOf [] = [] := rfl

theorem writesOf_cons_loadConfig (rest : List Event) :
    writesOf (Event.loadConfig :: rest) = writesOf rest := rfl

theorem writesOf_cons_warn (w : String) (rest : List Event) :
    writesOf (Event.warn w :: rest) = writesOf rest := rfl

theorem writesOf_cons_write (p : String) (c : List (List String))
    (rest : List Event) :
    writesOf (Event.write p c :: rest) = (p, c) :: writesOf rest := rfl

theorem writesOf_warns (ws : List String) :
    writesOf (ws.map Event.warn) = [] := by
  induction ws with
  | nil => rfl
  | cons w ws ih => simpa [writesOf_cons_warn] using ih

theorem writesOf_groupWrites (gs : List (String × List CombinedRecord)) :
    writesOf (gs.map (fun g =>
        Event.write (filePath g.1) (districtHeader :: g.2.map toRowC)))
      = gs.map (fun g => (filePath g.1, districtHeader :: g.2.map toRowC)) := by
  induction gs with
  | nil => rfl
  | cons g gs ih => simpa [writesOf, List.filterMap_cons] using ih

theorem writesOf_scrape_state_level (pp pd : Page) :
    writesOf (scrape_state_level pp pd).1 = []
  ∨ ∃ c, writesOf (scrape_state_level pp pd).1 = [("State.csv", c)] := by
  cases pp with
  | timeout => exact Or.inl rfl
  | loaded t =>
    cases pd with
    | timeout => exact Or.inl rfl
    | loaded t₂ =>
      cases t with
      | none => cases t₂ <;> exact Or.inl rfl
      | some u =>
        cases t₂ with
        | none => exact Or.inl rfl
        | some u₂ => exact Or.inr ⟨_, rfl⟩

theorem writesOf_scrape_all_districts (pp pd : Page) :
    writesOf (scrape_all_districts pp pd).1 = [] := by
  cases pp with
  | timeout => rfl
  | loaded t =>
    cases pd with
    | timeout => rfl
    | loaded t₂ => cases t <;> cases t₂ <;> rfl

theorem keys_addToGroup_nodup (gs : List (String × List CombinedRecord))
    (s : String) (r : CombinedRecord) (h : (gs.map Prod.fst).Nodup) :
    ((addToGroup gs s r).map Prod.fst).Nodup := by
  unfold addToGroup
  by_cases hany : gs.any (fun g => decide (g.1 = s))
  · rw [if_pos hany]
    have he : (gs.map (fun g => if g.1 = s then (g.1, g.2 ++ [r]) else g)).map
        Prod.fst = gs.map Prod.fst := by
      rw [List.map_map]
      apply List.map_congr_left
      intro g hg
      by_cases hgs : g.1 = s <;> simp [hgs]
    rw [he]
    exact h
  · rw [if_neg hany]
    rw [List.map_append]
    have hs : s ∉ gs.map Prod.fst := by
      intro hmem
      obtain ⟨g, hg, hgs⟩ := List.mem_map.mp hmem
      exact hany (List.any_eq_true.mpr ⟨g, hg, by simp [hgs]⟩)
    simp [List.nodup_append, h, hs]

theorem keys_groupFold_nodup (m : List (String × String))
    (recs : List CombinedRecord) :
    ∀ acc, ((acc.1.map Prod.fst).Nodup) →
      ((((recs.foldl (groupStep m) acc)).1.map Prod.fst)).Nodup := by
  induction recs with
  | nil => exact fun acc h => h
  | cons y recs ih =>
    intro acc h
    rw [List.foldl_cons]
    apply ih
    unfold groupStep
    rcases hy : lookupMap m y.name with _ | s
    · exact h
    · dsimp only
      by_cases hs : s = ""
      · rw [if_pos hs]
        exact h
      · rw [if_neg hs]
        exact keys_addToGroup_nodup _ _ _ h

theorem keys_groupDistricts_nodup (m : List (String × String))
    (recs : List CombinedRecord) :
    (((groupDistricts m recs).1.map Prod.fst)).Nodup :=
  keys_groupFold_nodup m recs ([], []) (by simp)

theorem groupWrites_paths_nodup (m : List (String × String))
    (recs : List CombinedRecord) :
    (((groupDistricts m recs).1.map (fun g => filePath g.1))).Nodup := by
  have h := keys_groupDistricts_nodup m recs
  have he : (groupDistricts m recs).1.map (fun g => filePath g.1)
      = ((groupDistricts m recs).1.map Prod.fst).map filePath := by
    rw [List.map_map]
    rfl
  rw [he]
  exact h.map (fun a b hab => filePath_inj hab)

theorem runWrites_paths_nodup (inp : RunInput) :
    ((runWrites inp).map Prod.fst).Nodup := by
  rcases inp with ⟨sp, sd, cp, cd, cf⟩
  unfold runWrites main
  rcases h1 : (scrape_state_level sp sd).2 with e | states
  · rcases writesOf_scrape_state_level sp sd with hw | ⟨c, hw⟩ <;>
      simp [h1, hw]
  · rcases h2 : (scrape_all_districts cp cd).2 with e | ds
    · rcases writesOf_scrape_state_level sp sd with hw | ⟨c, hw⟩ <;>
        simp [h1, h2, hw, writesOf_append, writesOf_scrape_all_districts]
    · by_cases hds : ds.isEmpty
      · rcases writesOf_scrape_state_level sp sd with hw | ⟨c, hw⟩ <;>
          simp [h1, h2, hds, hw, writesOf_append, writesOf_scrape_all_districts]
      · cases cf with
        | none =>
          rcases writesOf_scrape_state_level sp sd with hw | ⟨c, hw⟩ <;>
            simp [h1, h2, hds, hw, writesOf_append,
              writesOf_scrape_all_districts]
        | some m =>
          have hgw := writesOf_groupWrites (groupDistricts m ds).1
          have hnd := groupWrites_paths_nodup m ds
          rcases writesOf_scrape_state_level sp sd with hw | ⟨c, hw⟩
          · simp [h1, h2, hds, hw, writesOf_append,
              writesOf_scrape_all_districts, writesOf_warns, hgw,
              writesOf_cons_loadConfig, writesOf_nil, List.map_map]
            simpa [List.map_map, Function.comp] using hnd
          · simp [h1, h2, hds, hw, writesOf_append,
              writesOf_scrape_all_districts, writesOf_warns, hgw,
              writesOf_cons_loadConfig, writesOf_nil,
              List.map_map, List.nodup_cons]
            constructor
            · intro g hg hEq h
              exact filePath_ne_state g h
            · simpa [List.map_map, Function.comp] using hnd

theorem filter_key_length_le_one {α : Type} (l : List (String × α))
    (p : String) (h : (l.map Prod.fst).Nodup) :
    (l.filter (fun e => decide (e.1 = p))).length ≤ 1 := by
  induction l with
  | nil => simp
  | cons e l ih =>
    rw [List.map_cons, List.nodup_cons] at h
    obtain ⟨he, hl⟩ := h
    by_cases hp : e.1 = p
    · have hnil : l.filter (fun e => decide (e.1 = p)) = [] := by
        apply List.filter_eq_nil_iff.mpr
        intro x hx
        simp
        intro hxp
        exact absurd (List.mem_map.mpr ⟨x, hx, hxp.trans hp.symm⟩) he
      rw [List.filter_cons]
      simp [hp, hnil]
    · rw [List.filter_cons]
      simp only [hp, decide_eq_true_eq, if_neg, decide_False]
      exact ih hl

theorem perm_eq_of_length_le_one {α : Type} {l₁ l₂ : List α}
    (h : l₁.Perm l₂) (hl : l₁.length ≤ 1) : l₁ = l₂ := by
  cases l₁ with
  | nil => exact h.symm.eq_nil.symm
  | cons a t =>
    cases t with
    | nil => exact (List.perm_singleton.mp h.symm).symm
    | cons b t₂ => simp at hl

theorem applyWrites_perm {l₁ l₂ : List (String × List (List String))}
    (h : l₁.Perm l₂) (hnd : (l₁.map Prod.fst).Nodup) :
    applyWrites l₁ = applyWrites l₂ := by
  funext p
  unfold applyWrites
  have hperm := h.filter (fun e => decide (e.1 = p))
  rw [perm_eq_of_length_le_one hperm (filter_key_length_le_one l₁ p hnd)]

/-- C9: a run's write actions target pairwise-distinct files (distinct
state groups give distinct paths, all distinct from State.csv), so for a
fixed input any two thread schedules — any two permutations of the run's
write list — leave every file with the same final content: two runs of the
pipeline on identical input produce byte-identical output files. -/
theorem c9_deterministic_outputs (inp : RunInput)
    (s₁ s₂ : List (String × List (List String)))
    (h₁ : s₁.Perm (runWrites inp)) (h₂ : s₂.Perm (runWrites inp)) :
    applyWrites s₁ = applyWrites s₂ := by
  have hnd := runWrites_paths_nodup inp
  have e₁ := applyWrites_perm h₁ (((h₁.map Prod.fst).nodup_iff).mpr hnd)
  have e₂ := applyWrites_perm h₂ (((h₂.map Prod.fst).nodup_iff).mpr hnd)
  rw [e₁, e₂]

/-- C9 witness: the theorem applied to a concrete two-district run, with
one schedule the reverse of the other. -/
theorem c9_deterministic_outputs_witness :
    applyWrites (runWrites ⟨Page.loaded none, Page.loaded none,
        Page.loaded (some [[],
          [⟨"P", false, false⟩, ⟨"1", false, false⟩, ⟨"c", true, false⟩],
          [⟨"Q", false, false⟩, ⟨"2", false, false⟩, ⟨"d", false, true⟩]]),
        Page.loaded (some [[],
          [⟨"P", false, false⟩, ⟨"3", false, false⟩, ⟨"e", false, false⟩],
          [⟨"Q", false, false⟩, ⟨"4", false, false⟩, ⟨"f", true, false⟩]]),
        some [("P", "X"), ("Q", "Y")]⟩).reverse
  = applyWrites (runWrites ⟨Page.loaded none, Page.loaded none,
        Page.loaded (some [[],
          [⟨"P", false, false⟩, ⟨"1", false, false⟩, ⟨"c", true, false⟩],
          [⟨"Q", false, false⟩, ⟨"2", false, false⟩, ⟨"d", false, true⟩]]),
        Page.loaded (some [[],
          [⟨"P", false, false⟩, ⟨"3", false, false⟩, ⟨"e", false, false⟩],
          [⟨"Q", false, false⟩, ⟨"4", false, false⟩, ⟨"f", true, false⟩]]),
        some [("P", "X"), ("Q", "Y")]⟩) :=
  c9_deterministic_outputs
    ⟨Page.loaded none, Page.loaded none,
        Page.loaded (some [[],
          [⟨"P", false, false⟩, ⟨"1", false, false⟩, ⟨"c", true, false⟩],
          [⟨"Q", false, false⟩, ⟨"2", false, false⟩, ⟨"d", false, true⟩]]),
        Page.loaded (some [[],
          [⟨"P", false, false⟩, ⟨"3", false, false⟩, ⟨"e", false, false⟩],
          [⟨"Q", false, false⟩, ⟨"4", false, false⟩, ⟨"f", true, false⟩]]),
        some [("P", "X"), ("Q", "Y")]⟩ _ _ (by decide) (List.Perm.refl _)

theorem parseRowD_eq_view (r : Row) :
    parseRowD r = (dieselView r).map
      (fun bc => (pyStrip bc.1.text, changeOf bc.2)) := by
  match r with
  | [] => rfl
  | [a] => rfl
  | [a, b] => rfl
  | a :: b :: c :: rest => rfl

theorem parseRowsD_eq_of_view {rows₁ rows₂ : List Row}
    (h : rows₁.map dieselView = rows₂.map dieselView) :
    parseRowsD rows₁ = parseRowsD rows₂ := by
  have e : ∀ rows : List Row, parseRowsD rows =
      (rows.map dieselView).filterMap
        (fun o => o.map (fun bc => (pyStrip bc.1.text, changeOf bc.2))) := by
    intro rows
    rw [List.filterMap_map]
    unfold parseRowsD
    congr 1
    funext r
    exact parseRowD_eq_view r
  rw [e rows₁, e rows₂, h]

theorem tail_map_view {t₁ t₂ : List Row}
    (h : t₁.map dieselView = t₂.map dieselView) :
    t₁.tail.map dieselView = t₂.tail.map dieselView := by
  cases t₁ with
  | nil =>
    cases t₂ with
    | nil => rfl
    | cons b l => simp at h
  | cons a l₁ =>
    cases t₂ with
    | nil => simp at h
    | cons b l₂ =>
      simp at h
      exact h.2

theorem extractD_eq_of_view {t₁ t₂ : List Row}
    (h : t₁.map dieselView = t₂.map dieselView) :
    extractD t₁ = extractD t₂ :=
  parseRowsD_eq_of_view (tail_map_view h)

theorem scrape_state_level_view (pp : Page) {pd₁ pd₂ : Page}
    (h : pageView pd₁ = pageView pd₂) :
    scrape_state_level pp pd₁ = scrape_state_level pp pd₂ := by
  cases pd₁ with
  | timeout =>
    cases pd₂ with
    | timeout => rfl
    | loaded t => cases t <;> simp [pageView] at h
  | loaded t₁ =>
    cases pd₂ with
    | timeout => cases t₁ <;> simp [pageView] at h
    | loaded t₂ =>
      cases t₁ with
      | none =>
        cases t₂ with
        | none => rfl
        | some u => simp [pageView] at h
      | some u₁ =>
        cases t₂ with
        | none => simp [pageView] at h
        | some u₂ =>
          simp only [pageView, Option.some.injEq] at h
          have hd := extractD_eq_of_view h
          cases pp with
          | timeout => rfl
          | loaded tp =>
            cases tp with
            | none => rfl
            | some tpp =>
              simp [scrape_state_level, wait_for_table, pageTable, hd]

theorem scrape_all_districts_view (pp : Page) {pd₁ pd₂ : Page}
    (h : pageView pd₁ = pageView pd₂) :
    scrape_all_districts pp pd₁ = scrape_all_districts pp pd₂ := by
  cases pd₁ with
  | timeout =>
    cases pd₂ with
    | timeout => rfl
    | loaded t => cases t <;> simp [pageView] at h
  | loaded t₁ =>
    cases pd₂ with
    | timeout => cases t₁ <;> simp [pageView] at h
    | loaded t₂ =>
      cases t₁ with
      | none =>
        cases t₂ with
        | none => rfl
        | some u => simp [pageView] at h
      | some u₁ =>
        cases t₂ with
        | none => simp [pageView] at h
        | some u₂ =>
          simp only [pageView, Option.some.injEq] at h
          have hd := extractD_eq_of_view h
          cases pp with
          | timeout => rfl
          | loaded tp =>
            cases tp with
            | none => rfl
            | some tpp =>
              simp [scrape_all_districts, wait_for_table, pageTable, hd]

/-- C10: the diesel tables' name cells never influence any output — the
name of a combined record comes from the petrol record alone, and two runs
whose diesel pages agree on timeout status, table presence, and every
row's second and third cells (prices and change cells) while differing
arbitrarily in the rows' first (name) cells produce identical traces and
outcomes. -/
theorem c10_diesel_names_no_influence :
    (∀ (p : PRecord) (d : String × String), (mkCombined p d).name = p.name)
  ∧ (∀ inp₁ inp₂ : RunInput,
      inp₁.statePetrol = inp₂.statePetrol →
      inp₁.cityPetrol = inp₂.cityPetrol →
      inp₁.configFile = inp₂.configFile →
      pageView inp₁.stateDiesel = pageView inp₂.stateDiesel →
      pageView inp₁.cityDiesel = pageView inp₂.cityDiesel →
      main inp₁ = main inp₂) := by
  refine ⟨fun p d => rfl, ?_⟩
  intro inp₁ inp₂ hsp hcp hcf hsd hcd
  rcases inp₁ with ⟨sp₁, sd₁, cp₁, cd₁, cf₁⟩
  rcases inp₂ with ⟨sp₂, sd₂, cp₂, cd₂, cf₂⟩
  simp only at hsp hcp hcf hsd hcd
  subst hsp
  subst hcp
  subst hcf
  unfold main
  rw [scrape_state_level_view sp₁ hsd, scrape_all_districts_view cp₁ hcd]

/-- C10 witness: two concrete runs whose city diesel tables differ only in
the name cell produce identical results. -/
theorem c10_diesel_names_no_influence_witness :
    main ⟨Page.loaded none, Page.loaded none,
      Page.loaded (some [[],
        [⟨"P", false, false⟩, ⟨"1", false, false⟩, ⟨"c", true, false⟩]]),
      Page.loaded (some [[],
        [⟨"SPOOFED", false, false⟩, ⟨"2", false, false⟩, ⟨"d", false, false⟩]]),
      some [("P", "X")]⟩
  = main ⟨Page.loaded none, Page.loaded none,
      Page.loaded (some [[],
        [⟨"P", false, false⟩, ⟨"1", false, false⟩, ⟨"c", true, false⟩]]),
      Page.loaded (some [[],
        [⟨"OTHER", false, false⟩, ⟨"2", false, false⟩, ⟨"d", false, false⟩]]),
      some [("P", "X")]⟩ :=
  c10_diesel_names_no_influence.2 _ _ rfl rfl rfl rfl (by decide)

end Fuelish
